import Mathlib

/-!
Verification of the SideQuest prototype (`sidequest_app.py`) against its
natural-language specification.  The in-memory stores (`USERS`, `QUESTS`),
the endpoint handlers (`create_user`, `create_quest`, `join_quest`,
`complete_quest`, `get_recommendations`) and the helper
`capacity_available` are embedded shallowly: Python dicts become
association lists, Python sets become `Finset String`, timestamps become
`Int` (seconds), float scores become `ℚ` (the scorer only ever produces
0.5 and 0.8, both exactly representable), and HTTP outcomes become small
result inductives.
-/

namespace SideQuest

/-- Python dict lookup `m.get(k)`: the value bound to the first occurrence
of the key, if any. -/
def dictGet {α : Type} (m : List (String × α)) (k : String) : Option α :=
  (m.find? (fun p => p.1 == k)).map Prod.snd

/-- Python dict assignment `m[k] = v`: if the key is present its binding is
replaced in place (keeping its position), otherwise a new binding is
appended at the end. -/
def dictInsert {α : Type} : List (String × α) → String → α → List (String × α)
  | [], k, v => [(k, v)]
  | p :: m, k, v => if p.1 = k then (k, v) :: m else p :: dictInsert m k v

/-- Number of bindings a dict-as-list holds for a key. -/
def keyCount {α : Type} (m : List (String × α)) (k : String) : Nat :=
  (m.filter (fun p => p.1 == k)).length

theorem dictGet_dictInsert_self {α : Type} (m : List (String × α)) (k : String) (v : α) :
    dictGet (dictInsert m k v) k = some v := by
  induction m with
  | nil => simp [dictGet, dictInsert, List.find?]
  | cons p m ih =>
    by_cases h : p.1 = k
    · simp [dictGet, dictInsert, h, List.find?]
    · simpa [dictGet, dictInsert, h, List.find?] using ih

theorem mem_dictInsert {α : Type} {m : List (String × α)} {k : String} {v : α} {p : String × α}
    (h : p ∈ dictInsert m k v) : p = (k, v) ∨ p ∈ m := by
  induction m with
  | nil => simpa [dictInsert] using h
  | cons q m ih =>
    by_cases hq : q.1 = k
    · simp only [dictInsert, if_pos hq, List.mem_cons] at h
      rcases h with h | h
      · exact Or.inl h
      · exact Or.inr (List.mem_cons_of_mem _ h)
    · simp only [dictInsert, if_neg hq, List.mem_cons] at h
      rcases h with h | h
      · exact Or.inr (h ▸ List.mem_cons_self _ _)
      · rcases ih h with h | h
        · exact Or.inl h
        · exact Or.inr (List.mem_cons_of_mem _ h)

theorem mem_keys_dictInsert {α : Type} {m : List (String × α)} {k x : String} {v : α}
    (h : x ∈ (dictInsert m k v).map Prod.fst) : x = k ∨ x ∈ m.map Prod.fst := by
  rcases List.mem_map.1 h with ⟨p, hp, hx⟩
  rcases mem_dictInsert hp with h | h
  · left; rw [← hx, h]
  · right; exact hx ▸ List.mem_map_of_mem _ h

theorem nodup_keys_dictInsert {α : Type} {m : List (String × α)} (k : String) (v : α)
    (h : (m.map Prod.fst).Nodup) : ((dictInsert m k v).map Prod.fst).Nodup := by
  induction m with
  | nil => simp [dictInsert]
  | cons p m ih =>
    simp only [List.map_cons, List.nodup_cons] at h
    by_cases hp : p.1 = k
    · simp only [dictInsert, if_pos hp, List.map_cons, List.nodup_cons]
      exact ⟨hp ▸ h.1, h.2⟩
    · simp only [dictInsert, if_neg hp, List.map_cons, List.nodup_cons]
      refine ⟨fun hm => ?_, ih h.2⟩
      rcases mem_keys_dictInsert hm with h1 | h1
      · exact hp h1
      · exact h.1 h1

theorem keyCount_eq_zero {α : Type} {m : List (String × α)} {k : String}
    (h : k ∉ m.map Prod.fst) : keyCount m k = 0 := by
  induction m with
  | nil => rfl
  | cons p m ih =>
    simp only [List.map_cons, List.mem_cons] at h
    push_neg at h
    have hp : ¬ p.1 = k := fun hh => h.1 hh.symm
    simp only [keyCount, List.filter_cons, beq_iff_eq, hp, if_neg, decide_eq_true_eq]
    exact ih h.2

theorem keyCount_dictInsert {α : Type} (m : List (String × α)) (k : String) (v : α)
    (h : (m.map Prod.fst).Nodup) : keyCount (dictInsert m k v) k = 1 := by
  induction m with
  | nil => simp [dictInsert, keyCount]
  | cons p m ih =>
    simp only [List.map_cons, List.nodup_cons] at h
    by_cases hp : p.1 = k
    · have h0 : keyCount m k = 0 := keyCount_eq_zero (hp ▸ h.1)
      simp only [dictInsert, if_pos hp, keyCount, List.filter_cons]
      simpa [keyCount] using h0
    · have hp' : ¬ (p.1 == k) = true := by simpa using hp
      simp only [dictInsert, if_neg hp, keyCount, List.filter_cons, hp', if_neg]
      exact ih h.2

/-- Embeds the `User` dataclass: identity, profile preferences, lowercase
interest set, area and creation instant. -/
structure User where
  user_id : String
  display_name : String
  password : String
  default_energy : String
  social_style : String
  mode : String
  interests : Finset String
  area : String
  created_at : Int
deriving DecidableEq

/-- Embeds the `Quest` dataclass: identity, descriptive fields, lowercase
tag set, schedule, capacity, the participant set and the
participant-to-rating completions dict. -/
structure Quest where
  quest_id : String
  organizer_id : String
  title : String
  description : String
  area : String
  social_style : String
  mode : String
  tags : Finset String
  start_time : Int
  duration_mins : Nat
  capacity : Nat
  created_at : Int
  participant_ids : Finset String
  completions : List (String × Nat)
deriving DecidableEq

/-- The process-wide stores `USERS` and `QUESTS`. -/
structure AppState where
  users : List (String × User)
  quests : List (String × Quest)
deriving DecidableEq

/-- Embeds `capacity_available`: `len(q.participant_ids) < q.capacity`. -/
def capacity_available (q : Quest) : Bool :=
  decide (q.participant_ids.card < q.capacity)

/-- Outcome of the join endpoint. -/
inductive JoinResult
  | ok
  | okAlready
  | notFound
  | full
deriving DecidableEq

/-- Embeds `join_quest`: 404 for an unknown quest, an "Already joined"
acknowledgment for a member, a 400 "Full" rejection when no capacity is
available, otherwise the user id is added to the participant set.  The
user id is never looked up in `USERS`. -/
def join_quest (s : AppState) (quest_id user_id : String) : JoinResult × AppState :=
  match dictGet s.quests quest_id with
  | none => (JoinResult.notFound, s)
  | some q =>
    if user_id ∈ q.participant_ids then (JoinResult.okAlready, s)
    else if capacity_available q then
      (JoinResult.ok,
        { s with quests := (dictInsert s.quests quest_id
            { q with participant_ids := insert user_id q.participant_ids }) })
    else (JoinResult.full, s)

/-- Outcome of the complete endpoint. -/
inductive CompleteResult
  | ok
  | notFound
deriving DecidableEq

/-- Embeds `complete_quest`: 404 for an unknown quest, otherwise
`q.completions[user_id] = rating` unconditionally — no membership check
against `participant_ids`. -/
def complete_quest (s : AppState) (quest_id user_id : String) (rating : Nat) :
    CompleteResult × AppState :=
  match dictGet s.quests quest_id with
  | none => (CompleteResult.notFound, s)
  | some q =>
    (CompleteResult.ok,
      { s with quests := (dictInsert s.quests quest_id
          { q with completions := dictInsert q.completions user_id rating }) })

/-- The score `get_recommendations` assigns to a candidate quest:
`score = 0.5; if u.social_style == q.social_style: score += 0.3`.  The two
reachable values are written as the folded rational constants
`mkRat 5 10 = 0.5` and `mkRat 8 10 = 0.5 + 0.3`, so the function evaluates
by kernel reduction (the float sum 0.5 + 0.3 is within 2⁻⁵³ of 0.8; every
claim about scores depends only on the order of the two levels and on the
exact value 0.5, on which floats and these rationals agree). -/
def questScore (u : User) (q : Quest) : ℚ :=
  if u.social_style = q.social_style then mkRat 8 10 else mkRat 5 10

/-- The candidate loop of `get_recommendations`: iterate `QUESTS.values()`
in insertion order, skipping quests in a different area, quests the user
already joined, and full quests; keep `(quest, score)`. -/
def recCandidates (s : AppState) (u : User) (user_id : String) : List (Quest × ℚ) :=
  (s.quests.map Prod.snd).filterMap (fun q =>
    if q.area ≠ u.area then none
    else if user_id ∈ q.participant_ids then none
    else if capacity_available q then some (q, questScore u q)
    else none)

/-- The order of `candidates.sort(key=lambda x: x[1], reverse=True)`:
a pair may precede another when its score is at least as large. -/
def scoreDesc (a b : Quest × ℚ) : Prop :=
  b.2 ≤ a.2

instance scoreDescDecidable : DecidableRel scoreDesc :=
  fun a b => inferInstanceAs (Decidable (b.2 ≤ a.2))

instance scoreDescTotal : IsTotal (Quest × ℚ) scoreDesc :=
  ⟨fun a b => le_total b.2 a.2⟩

instance scoreDescTrans : IsTrans (Quest × ℚ) scoreDesc :=
  ⟨fun _ _ _ h1 h2 => le_trans h2 h1⟩

/-- Python list slice `l[:k]` for an `int` bound `k`: a prefix of length
`k` when `k ≥ 0`, all but the last `-k` elements when `k < 0`. -/
def pySlice {α : Type} (l : List α) (k : Int) : List α :=
  if 0 ≤ k then l.take k.toNat else l.take (l.length + k).toNat

/-- Python's banker's rounding (half to even) of the fraction `a / b`,
for a positive denominator `b`, computed with floored division. -/
def roundHalfEvenInt (a : Int) (b : Nat) : Int :=
  let q := a.fdiv b
  let r := a.fmod b
  if 2 * r < (b : Int) then q
  else if (b : Int) < 2 * r then q + 1
  else if q.fmod 2 = 0 then q else q + 1

/-- `round(score, 4)` as presented by the endpoint: round half to even at
the fourth decimal place. -/
def round4 (x : ℚ) : ℚ :=
  mkRat (roundHalfEvenInt (x.num * 10000) x.den) 10000

/-- Embeds `get_recommendations`: `none` is the 404 for an unknown user;
otherwise the candidates are sorted by score descending with a stable
sort (Python's `list.sort` is stable; `List.insertionSort` on `scoreDesc`
is the same stable descending order), sliced to the caller-supplied `k`
(default 3), and presented with the score rounded to 4 decimal places. -/
def get_recommendations (s : AppState) (user_id : String) (k : Int) :
    Option (List (Quest × ℚ)) :=
  match dictGet s.users user_id with
  | none => none
  | some u =>
    some ((pySlice (List.insertionSort scoreDesc (recCandidates s u user_id)) k).map
      (fun p => (p.1, round4 p.2)))

/-- The pydantic pattern for an energy level. -/
def validEnergy (e : String) : Bool :=
  e == "low" || e == "neutral" || e == "high"

/-- The pydantic pattern for a social style. -/
def validSocial (e : String) : Bool :=
  e == "quiet" || e == "talkative" || e == "either"

/-- The pydantic pattern for a mode. -/
def validMode (e : String) : Bool :=
  e == "online" || e == "offline" || e == "either"

/-- A `POST /users` request body (`UserCreate`) together with the
system-chosen uuid and the `datetime.utcnow()` creation instant, which the
embedding takes as parameters. -/
structure UserBody where
  user_id : String
  display_name : String
  password : String
  default_energy : String
  social_style : String
  mode : String
  interests : List String
  area : String
  created_at : Int
deriving DecidableEq

/-- A `POST /quests` request body (`QuestCreate`) with the system-chosen
uuid, the parsed `start_time_iso` instant and the creation instant taken
as parameters. -/
structure QuestBody where
  quest_id : String
  organizer_id : String
  title : String
  description : String
  area : String
  social_style : String
  mode : String
  tags : List String
  start_time : Int
  duration_mins : Nat
  capacity : Nat
  created_at : Int
deriving DecidableEq

/-- Embeds `create_user` together with its pydantic validation: a body
failing validation (422) or a duplicate display name (400) leaves the
stores unchanged; otherwise a `User` with lowercased interest set is
stored under the fresh uuid. -/
def create_user (s : AppState) (b : UserBody) : AppState :=
  if b.password.length ≥ 3 && validEnergy b.default_energy &&
      validSocial b.social_style && validMode b.mode then
    if s.users.any (fun p => p.2.display_name.toLower == b.display_name.toLower) then s
    else
      { s with users := (dictInsert s.users b.user_id
          { user_id := b.user_id
            display_name := b.display_name
            password := b.password
            default_energy := b.default_energy
            social_style := b.social_style
            mode := b.mode
            interests := (b.interests.map String.toLower).toFinset
            area := b.area
            created_at := b.created_at }) }
  else s

/-- Embeds `create_quest` together with its pydantic validation
(`duration_mins` in 10–240, `capacity` in 2–50, style patterns): an
invalid body (422) or an unknown organizer (404) leaves the stores
unchanged; otherwise a `Quest` with lowercased tag set, empty participant
set and empty completions is stored under the fresh uuid. -/
def create_quest (s : AppState) (b : QuestBody) : AppState :=
  if validSocial b.social_style && validMode b.mode &&
      decide (10 ≤ b.duration_mins) && decide (b.duration_mins ≤ 240) &&
      decide (2 ≤ b.capacity) && decide (b.capacity ≤ 50) then
    match dictGet s.users b.organizer_id with
    | none => s
    | some _ =>
      { s with quests := (dictInsert s.quests b.quest_id
          { quest_id := b.quest_id
            organizer_id := b.organizer_id
            title := b.title
            description := b.description
            area := b.area
            social_style := b.social_style
            mode := b.mode
            tags := (b.tags.map String.toLower).toFinset
            start_time := b.start_time
            duration_mins := b.duration_mins
            capacity := b.capacity
            created_at := b.created_at
            participant_ids := ∅
            completions := [] }) }
  else s

/-- One state-changing API call. -/
inductive Op
  | createUser (b : UserBody)
  | createQuest (b : QuestBody)
  | join (quest_id user_id : String)
  | complete (quest_id user_id : String) (rating : Nat)
deriving DecidableEq

/-- Effect of one API call on the stores; `complete` carries the pydantic
range check on the rating (1–5). -/
def applyOp (s : AppState) : Op → AppState
  | Op.createUser b => create_user s b
  | Op.createQuest b => create_quest s b
  | Op.join qid uid => (join_quest s qid uid).2
  | Op.complete qid uid r => if 1 ≤ r ∧ r ≤ 5 then (complete_quest s qid uid r).2 else s

/-- The empty stores the process starts with. -/
def initState : AppState :=
  { users := [], quests := [] }

/-- The state after a sequence of API calls from process start. -/
def runOps (ops : List Op) : AppState :=
  ops.foldl applyOp initState

/-- A state the running process can actually be in. -/
def Reachable (s : AppState) : Prop :=
  ∃ ops, runOps ops = s

theorem dictGet_mem {α : Type} {m : List (String × α)} {k : String} {v : α}
    (h : dictGet m k = some v) : (k, v) ∈ m := by
  unfold dictGet at h
  rcases Option.map_eq_some'.1 h with ⟨p, hp, hv⟩
  have hk : p.1 = k := by simpa using List.find?_some hp
  have : p = (k, v) := Prod.ext hk hv
  exact this ▸ List.mem_of_find?_eq_some hp

theorem get_recommendations_eq {s : AppState} {uid : String} {u : User} (k : Int)
    (hu : dictGet s.users uid = some u) :
    get_recommendations s uid k =
      some ((pySlice (List.insertionSort scoreDesc (recCandidates s u uid)) k).map
        (fun p => (p.1, round4 p.2))) := by
  simp [get_recommendations, hu]

theorem mem_recCandidates {s : AppState} {u : User} {uid : String} {q : Quest} {sc : ℚ} :
    (q, sc) ∈ recCandidates s u uid ↔
      q ∈ s.quests.map Prod.snd ∧ q.area = u.area ∧ uid ∉ q.participant_ids ∧
        q.participant_ids.card < q.capacity ∧ sc = questScore u q := by
  unfold recCandidates
  rw [List.mem_filterMap]
  constructor
  · rintro ⟨a, ha, hf⟩
    by_cases h1 : a.area ≠ u.area
    · simp [h1] at hf
    by_cases h2 : uid ∈ a.participant_ids
    · simp [h1, h2] at hf
    by_cases h3 : capacity_available a
    · simp only [h1, h2, h3, if_neg, if_pos, if_false, ite_false, ite_true,
        Option.some.injEq] at hf
      obtain ⟨rfl, rfl⟩ := Prod.mk.injEq .. ▸ hf
      push_neg at h1
      exact ⟨ha, h1, h2, by simpa [capacity_available] using h3, rfl⟩
    · simp [h1, h2, h3] at hf
  · rintro ⟨hq, h1, h2, h3, rfl⟩
    refine ⟨q, hq, ?_⟩
    have hc : capacity_available q := by simpa [capacity_available] using h3
    simp [h1, h2, hc]

theorem pySlice_sublist {α : Type} (l : List α) (k : Int) : (pySlice l k).Sublist l := by
  unfold pySlice
  split <;> exact List.take_sublist _ _

theorem mem_output_mem_candidates {s : AppState} {u : User} {uid : String} {k : Int}
    {q : Quest} {sc : ℚ}
    (h : (q, sc) ∈ (pySlice (List.insertionSort scoreDesc (recCandidates s u uid)) k).map
      (fun p => (p.1, round4 p.2))) :
    ∃ sc0, (q, sc0) ∈ recCandidates s u uid ∧ sc = round4 sc0 := by
  rcases List.mem_map.1 h with ⟨p, hp, hpq⟩
  have hps : p ∈ List.insertionSort scoreDesc (recCandidates s u uid) :=
    (pySlice_sublist _ _).mem hp
  have hpc : p ∈ recCandidates s u uid := (List.perm_insertionSort _ _).mem_iff.1 hps
  obtain ⟨h1, h2⟩ := Prod.mk.injEq .. ▸ hpq
  exact ⟨p.2, by rw [← h1]; simpa using hpc, h2.symm⟩

theorem questScore_cases (u : User) (q : Quest) :
    questScore u q = mkRat 5 10 ∨ questScore u q = mkRat 8 10 := by
  unfold questScore
  split
  · exact Or.inr rfl
  · exact Or.inl rfl

theorem round4_score_mono {x y : ℚ}
    (hx : x = mkRat 5 10 ∨ x = mkRat 8 10) (hy : y = mkRat 5 10 ∨ y = mkRat 8 10)
    (h : y ≤ x) : round4 y ≤ round4 x := by
  rcases hx with rfl | rfl <;> rcases hy with rfl | rfl
  · exact le_refl _
  · exact absurd h (by decide)
  · decide
  · exact le_refl _

/-- The capacity invariant: no stored quest holds more participants than
its capacity. -/
def QuestCapInv (s : AppState) : Prop :=
  ∀ p ∈ s.quests, p.2.participant_ids.card ≤ p.2.capacity

theorem questCapInv_applyOp {s : AppState} (op : Op) (h : QuestCapInv s) :
    QuestCapInv (applyOp s op) := by
  cases op with
  | createUser b =>
    simp only [applyOp, create_user]
    split
    · split
      · exact h
      · exact fun p hp => h p hp
    · exact h
  | createQuest b =>
    simp only [applyOp, create_quest]
    split
    · cases hg : dictGet s.users b.organizer_id with
      | none => simp only [hg]; exact h
      | some u =>
        simp only [hg]
        intro p hp
        rcases mem_dictInsert hp with rfl | hm
        · simp
        · exact h p hm
    · exact h
  | join qid uid =>
    cases hg : dictGet s.quests qid with
    | none => simp only [applyOp, join_quest, hg]; exact h
    | some q =>
      simp only [applyOp, join_quest, hg]
      by_cases hmem : uid ∈ q.participant_ids
      · simp only [if_pos hmem]; exact h
      · by_cases hcap : capacity_available q
        · simp only [if_neg hmem, if_pos hcap]
          intro p hp
          rcases mem_dictInsert hp with rfl | hm
          · have hlt : q.participant_ids.card < q.capacity := by
              simpa [capacity_available] using hcap
            exact le_trans (Finset.card_insert_le _ _) hlt
          · exact h p hm
        · simp only [if_neg hmem, if_neg hcap]; exact h
  | complete qid uid r =>
    simp only [applyOp]
    split
    · cases hg : dictGet s.quests qid with
      | none => simp only [complete_quest, hg]; exact h
      | some q =>
        simp only [complete_quest, hg]
        intro p hp
        rcases mem_dictInsert hp with rfl | hm
        · exact h (qid, q) (dictGet_mem hg)
        · exact h p hm
    · exact h

theorem questCapInv_runOps (ops : List Op) :
    ∀ s, QuestCapInv s → QuestCapInv (ops.foldl applyOp s) := by
  induction ops with
  | nil => exact fun s h => h
  | cons op ops ih => exact fun s h => ih _ (questCapInv_applyOp op h)

/-- C6: at every reachable state every stored quest has at most `capacity`
participants, and a join on a quest whose participant set is exactly full
leaves the state unchanged and is rejected with "Full" whenever the joining
user is not already a member. -/
theorem C6_capacity_invariant (s : AppState) (h : Reachable s) :
    (∀ p ∈ s.quests, p.2.participant_ids.card ≤ p.2.capacity) ∧
    (∀ qid q uid, dictGet s.quests qid = some q →
      q.participant_ids.card = q.capacity →
      (join_quest s qid uid).2 = s ∧
        (uid ∉ q.participant_ids → (join_quest s qid uid).1 = JoinResult.full)) := by
  obtain ⟨ops, rfl⟩ := h
  refine ⟨questCapInv_runOps ops initState (fun p hp => by simp [initState] at hp), ?_⟩
  intro qid q uid hq hfull
  have hcap : capacity_available q = false := by
    simp [capacity_available, hfull]
  by_cases hm : uid ∈ q.participant_ids
  · exact ⟨by simp [join_quest, hq, hm], fun hm' => absurd hm hm'⟩
  · exact ⟨by simp [join_quest, hq, hm, hcap], fun _ => by simp [join_quest, hq, hm, hcap]⟩

def c6UserBody : UserBody :=
  { user_id := "u1", display_name := "A", password := "pw123",
    default_energy := "neutral", social_style := "either", mode := "either",
    interests := [], area := "NTU", created_at := 0 }

def c6QuestBody : QuestBody :=
  { quest_id := "q1", organizer_id := "u1", title := "T", description := "D",
    area := "NTU", social_style := "either", mode := "either", tags := [],
    start_time := 100, duration_mins := 60, capacity := 2, created_at := 0 }

/-- A run that creates a quest of capacity 2 and fills both slots. -/
def c6Ops : List Op :=
  [Op.createUser c6UserBody, Op.createQuest c6QuestBody,
   Op.join "q1" "a", Op.join "q1" "b"]

def c6State : AppState := runOps c6Ops

def c6Quest : Quest :=
  { quest_id := "q1", organizer_id := "u1", title := "T", description := "D",
    area := "NTU", social_style := "either", mode := "either", tags := ∅,
    start_time := 100, duration_mins := 60, capacity := 2, created_at := 0,
    participant_ids := insert "b" (insert "a" ∅), completions := [] }

theorem C6_capacity_invariant_witness :
    c6Quest.participant_ids.card ≤ c6Quest.capacity ∧
    (join_quest c6State "q1" "carol").2 = c6State ∧
    (join_quest c6State "q1" "carol").1 = JoinResult.full := by
  have h := C6_capacity_invariant c6State ⟨c6Ops, rfl⟩
  refine ⟨h.1 ("q1", c6Quest) (by decide), ?_, ?_⟩
  · exact (h.2 "q1" c6Quest "carol" (by decide) (by decide)).1
  · exact (h.2 "q1" c6Quest "carol" (by decide) (by decide)).2 (by decide)

theorem get_recommendations_some {s : AppState} {uid : String} {k : Int}
    {res : List (Quest × ℚ)}
    (h : get_recommendations s uid k = some res) :
    ∃ u, dictGet s.users uid = some u ∧
      res = (pySlice (List.insertionSort scoreDesc (recCandidates s u uid)) k).map
        (fun p => (p.1, round4 p.2)) := by
  unfold get_recommendations at h
  cases hu : dictGet s.users uid with
  | none => rw [hu] at h; cases h
  | some u => rw [hu] at h; exact ⟨u, rfl, (Option.some.inj h).symm⟩

/-- C7: a quest in a different area than the requesting user never appears
in the recommendation output. -/
theorem C7_area_filter (s : AppState) (uid : String) (u : User) (k : Int)
    (res : List (Quest × ℚ)) (q : Quest) (sc : ℚ)
    (hu : dictGet s.users uid = some u)
    (hres : get_recommendations s uid k = some res)
    (hq : (q, sc) ∈ res) : q.area = u.area := by
  obtain ⟨u', hu', rfl⟩ := get_recommendations_some hres
  rw [hu] at hu'
  obtain rfl := Option.some.inj hu'
  obtain ⟨sc0, hc, rfl⟩ := mem_output_mem_candidates hq
  exact (mem_recCandidates.1 hc).2.1

def c7UserBody : UserBody :=
  { user_id := "u1", display_name := "U", password := "pw123",
    default_energy := "neutral", social_style := "quiet", mode := "either",
    interests := [], area := "NTU", created_at := 0 }

def c7QuestBody : QuestBody :=
  { quest_id := "q1", organizer_id := "u1", title := "T", description := "D",
    area := "NTU", social_style := "quiet", mode := "offline", tags := [],
    start_time := 100, duration_mins := 60, capacity := 3, created_at := 0 }

def c7State : AppState := runOps [Op.createUser c7UserBody, Op.createQuest c7QuestBody]

def c7User : User :=
  { user_id := "u1", display_name := "U", password := "pw123",
    default_energy := "neutral", social_style := "quiet", mode := "either",
    interests := ∅, area := "NTU", created_at := 0 }

def c7Quest : Quest :=
  { quest_id := "q1", organizer_id := "u1", title := "T", description := "D",
    area := "NTU", social_style := "quiet", mode := "offline", tags := ∅,
    start_time := 100, duration_mins := 60, capacity := 3, created_at := 0,
    participant_ids := ∅, completions := [] }

theorem C7_area_filter_witness : c7Quest.area = c7User.area :=
  C7_area_filter c7State "u1" c7User 3 [(c7Quest, mkRat 8 10)] c7Quest (mkRat 8 10)
    (by decide) (by decide) (by decide)

/-- C8: the scores of a recommendation output are non-increasing from the
first returned quest to the last. -/
theorem C8_scores_nonincreasing (s : AppState) (uid : String) (k : Int)
    (res : List (Quest × ℚ))
    (hres : get_recommendations s uid k = some res) :
    (res.map Prod.snd).Pairwise (fun a b => b ≤ a) := by
  obtain ⟨u, hu, rfl⟩ := get_recommendations_some hres
  have hsorted : (List.insertionSort scoreDesc (recCandidates s u uid)).Pairwise scoreDesc :=
    List.sorted_insertionSort scoreDesc _
  have hslice : (pySlice (List.insertionSort scoreDesc (recCandidates s u uid)) k).Pairwise
      scoreDesc :=
    List.Pairwise.sublist (pySlice_sublist _ _) hsorted
  have hmemsc : ∀ p ∈ pySlice (List.insertionSort scoreDesc (recCandidates s u uid)) k,
      p.2 = mkRat 5 10 ∨ p.2 = mkRat 8 10 := by
    intro p hp
    have hpc : p ∈ recCandidates s u uid :=
      (List.perm_insertionSort _ _).mem_iff.1 ((pySlice_sublist _ _).mem hp)
    obtain ⟨-, -, -, -, hsc⟩ := mem_recCandidates.1 (show (p.1, p.2) ∈ _ by simpa using hpc)
    exact hsc ▸ questScore_cases u p.1
  rw [List.map_map, List.pairwise_map]
  exact hslice.imp_of_mem
    (fun {a b} ha hb hr => round4_score_mono (hmemsc a ha) (hmemsc b hb) hr)

def c8UserBody : UserBody :=
  { user_id := "u1", display_name := "U", password := "pw123",
    default_energy := "neutral", social_style := "quiet", mode := "either",
    interests := [], area := "NTU", created_at := 0 }

def c8QuestBodyA : QuestBody :=
  { quest_id := "qa", organizer_id := "u1", title := "A", description := "D",
    area := "NTU", social_style := "talkative", mode := "offline", tags := [],
    start_time := 100, duration_mins := 60, capacity := 3, created_at := 0 }

def c8QuestBodyB : QuestBody :=
  { quest_id := "qb", organizer_id := "u1", title := "B", description := "D",
    area := "NTU", social_style := "quiet", mode := "offline", tags := [],
    start_time := 200, duration_mins := 60, capacity := 3, created_at := 0 }

/-- A run with one low-scoring (0.5) and one high-scoring (0.8) quest,
created in ascending score order so the sort has to reorder them. -/
def c8State : AppState :=
  runOps [Op.createUser c8UserBody, Op.createQuest c8QuestBodyA, Op.createQuest c8QuestBodyB]

def c8QuestA : Quest :=
  { quest_id := "qa", organizer_id := "u1", title := "A", description := "D",
    area := "NTU", social_style := "talkative", mode := "offline", tags := ∅,
    start_time := 100, duration_mins := 60, capacity := 3, created_at := 0,
    participant_ids := ∅, completions := [] }

def c8QuestB : Quest :=
  { quest_id := "qb", organizer_id := "u1", title := "B", description := "D",
    area := "NTU", social_style := "quiet", mode := "offline", tags := ∅,
    start_time := 200, duration_mins := 60, capacity := 3, created_at := 0,
    participant_ids := ∅, completions := [] }

theorem C8_scores_nonincreasing_witness :
    (([(c8QuestB, mkRat 8 10), (c8QuestA, mkRat 5 10)].map Prod.snd).Pairwise
      (fun a b : ℚ => b ≤ a)) :=
  C8_scores_nonincreasing c8State "u1" 3 [(c8QuestB, mkRat 8 10), (c8QuestA, mkRat 5 10)]
    (by decide)

def c3UserBody : UserBody :=
  { user_id := "u1", display_name := "U", password := "pw123",
    default_energy := "neutral", social_style := "quiet", mode := "either",
    interests := [], area := "NTU", created_at := 0 }

def c3QuestBody : QuestBody :=
  { quest_id := "q1", organizer_id := "u1", title := "T", description := "D",
    area := "NTU", social_style := "quiet", mode := "offline", tags := [],
    start_time := 100, duration_mins := 60, capacity := 3, created_at := 0 }

def c3State : AppState := runOps [Op.createUser c3UserBody, Op.createQuest c3QuestBody]

def c3User : User :=
  { user_id := "u1", display_name := "U", password := "pw123",
    default_energy := "neutral", social_style := "quiet", mode := "either",
    interests := ∅, area := "NTU", created_at := 0 }

def c3Quest : Quest :=
  { quest_id := "q1", organizer_id := "u1", title := "T", description := "D",
    area := "NTU", social_style := "quiet", mode := "offline", tags := ∅,
    start_time := 100, duration_mins := 60, capacity := 3, created_at := 0,
    participant_ids := ∅, completions := [] }

/-- C3 fails on the code: no clamping of the limit to [1,10] happens.  At a
reachable state with exactly one candidate quest, the request with
`k = 0` returns the empty list instead of "at least one quest". -/
theorem C3_limit_counterexample :
    Reachable c3State ∧
    (recCandidates c3State c3User "u1").length = 1 ∧
    get_recommendations c3State "u1" 0 = some [] :=
  ⟨⟨[Op.createUser c3UserBody, Op.createQuest c3QuestBody], rfl⟩, by decide, by decide⟩

/-- C3 amended: `get_recommendations` applies the caller's limit `k` as a
plain Python slice with no clamping: for every `k ≥ 0` the output length
is exactly `min k (number of candidates)` — so `k = 0` returns nothing
even when candidates exist, and `k > 10` returns more than 10 quests
whenever more than 10 candidates exist. -/
theorem C3_limit_amended (s : AppState) (uid : String) (u : User) (k : Int)
    (res : List (Quest × ℚ))
    (hu : dictGet s.users uid = some u)
    (hk : 0 ≤ k)
    (hres : get_recommendations s uid k = some res) :
    res.length = min k.toNat (recCandidates s u uid).length := by
  obtain ⟨u', hu', rfl⟩ := get_recommendations_some hres
  rw [hu] at hu'
  obtain rfl := Option.some.inj hu'
  simp [pySlice, hk, List.length_take, List.length_insertionSort]

theorem C3_limit_amended_witness :
    ([(c3Quest, mkRat 8 10)] : List (Quest × ℚ)).length =
      min (Int.toNat 2) (recCandidates c3State c3User "u1").length :=
  C3_limit_amended c3State "u1" c3User 2 [(c3Quest, mkRat 8 10)]
    (by decide) (by decide) (by decide)

def c2UserBody : UserBody :=
  { user_id := "u1", display_name := "U", password := "pw123",
    default_energy := "neutral", social_style := "either", mode := "either",
    interests := [], area := "NTU", created_at := 500000 }

def c2QuestBody : QuestBody :=
  { quest_id := "q1", organizer_id := "u1", title := "T", description := "D",
    area := "NTU", social_style := "either", mode := "offline", tags := [],
    start_time := 0, duration_mins := 60, capacity := 3, created_at := 500000 }

def c2State : AppState := runOps [Op.createUser c2UserBody, Op.createQuest c2QuestBody]

def c2User : User :=
  { user_id := "u1", display_name := "U", password := "pw123",
    default_energy := "neutral", social_style := "either", mode := "either",
    interests := ∅, area := "NTU", created_at := 500000 }

def c2Quest : Quest :=
  { quest_id := "q1", organizer_id := "u1", title := "T", description := "D",
    area := "NTU", social_style := "either", mode := "offline", tags := ∅,
    start_time := 0, duration_mins := 60, capacity := 3, created_at := 500000,
    participant_ids := ∅, completions := [] }

/-- The current instant in the C2 scenario: far after the quest's start. -/
def c2Now : Int := 1000000

/-- C2 fails on the code: `get_recommendations` never looks at
`start_time`.  At a reachable state holding a quest whose start time lies
strictly before "now" (hence outside every forward-looking window, 48- or
72-hour alike), the quest is still returned. -/
theorem C2_window_counterexample :
    Reachable c2State ∧
    c2Quest.start_time < c2Now ∧
    get_recommendations c2State "u1" 3 = some [(c2Quest, mkRat 8 10)] :=
  ⟨⟨[Op.createUser c2UserBody, Op.createQuest c2QuestBody], rfl⟩, by decide, by decide⟩

/-- C2 amended: the code applies no time-window filter.  Whenever the
slice bound does not truncate (`k ≥` the number of stored quests), a quest
appears in the output exactly when it is stored, shares the user's area,
does not already list the user, and has free capacity — its `start_time`
is irrelevant. -/
theorem C2_window_amended (s : AppState) (uid : String) (u : User) (k : Int)
    (res : List (Quest × ℚ)) (q : Quest)
    (hu : dictGet s.users uid = some u)
    (hk : (s.quests.length : Int) ≤ k)
    (hres : get_recommendations s uid k = some res) :
    q ∈ res.map Prod.fst ↔
      (q ∈ s.quests.map Prod.snd ∧ q.area = u.area ∧ uid ∉ q.participant_ids ∧
        q.participant_ids.card < q.capacity) := by
  obtain ⟨u', hu', rfl⟩ := get_recommendations_some hres
  rw [hu] at hu'
  obtain rfl := Option.some.inj hu'
  have h0k : 0 ≤ k := le_trans (Int.natCast_nonneg _) hk
  have hc : (recCandidates s u uid).length ≤ s.quests.length := by
    unfold recCandidates
    exact le_trans (List.length_filterMap_le _ _) (by simp)
  have hlen : s.quests.length ≤ k.toNat := by omega
  have hall : pySlice (List.insertionSort scoreDesc (recCandidates s u uid)) k =
      List.insertionSort scoreDesc (recCandidates s u uid) := by
    rw [pySlice, if_pos h0k]
    exact List.take_of_length_le (by rw [List.length_insertionSort]; omega)
  rw [hall, List.map_map]
  constructor
  · intro hq
    obtain ⟨p, hp, rfl⟩ := List.mem_map.1 hq
    have hpc : p ∈ recCandidates s u uid := (List.perm_insertionSort _ _).mem_iff.1 hp
    obtain ⟨h1, h2, h3, h4, -⟩ := mem_recCandidates.1 (show (p.1, p.2) ∈ _ by simpa using hpc)
    exact ⟨h1, h2, h3, h4⟩
  · rintro ⟨h1, h2, h3, h4⟩
    have hmem : (q, questScore u q) ∈ recCandidates s u uid :=
      mem_recCandidates.2 ⟨h1, h2, h3, h4, rfl⟩
    exact List.mem_map.2 ⟨(q, questScore u q), (List.perm_insertionSort _ _).mem_iff.2 hmem, rfl⟩

theorem C2_window_amended_witness :
    (c2Quest ∈ ([(c2Quest, mkRat 8 10)] : List (Quest × ℚ)).map Prod.fst) ↔
      (c2Quest ∈ c2State.quests.map Prod.snd ∧ c2Quest.area = c2User.area ∧
        "u1" ∉ c2Quest.participant_ids ∧
        c2Quest.participant_ids.card < c2Quest.capacity) :=
  C2_window_amended c2State "u1" c2User 5 [(c2Quest, mkRat 8 10)] c2Quest
    (by decide) (by decide) (by decide)

/-- C9: `join_quest` never consults the `USERS` store: a user id that is
not a key of `USERS` still joins a stored quest with free capacity, the
call succeeds and the id is added to the participant set. -/
theorem C9_join_no_user_check (s : AppState) (qid uid : String) (q : Quest)
    (_huser : dictGet s.users uid = none)
    (hq : dictGet s.quests qid = some q)
    (hmem : uid ∉ q.participant_ids)
    (hcap : q.participant_ids.card < q.capacity) :
    (join_quest s qid uid).1 = JoinResult.ok ∧
    dictGet (join_quest s qid uid).2.quests qid =
      some { q with participant_ids := insert uid q.participant_ids } := by
  have hc : capacity_available q = true := by simpa [capacity_available] using hcap
  constructor
  · simp [join_quest, hq, hmem, hc]
  · simp [join_quest, hq, hmem, hc, dictGet_dictInsert_self]

def c9UserBody : UserBody :=
  { user_id := "u1", display_name := "U", password := "pw123",
    default_energy := "neutral", social_style := "quiet", mode := "either",
    interests := [], area := "NTU", created_at := 0 }

def c9QuestBody : QuestBody :=
  { quest_id := "q1", organizer_id := "u1", title := "T", description := "D",
    area := "NTU", social_style := "quiet", mode := "offline", tags := [],
    start_time := 100, duration_mins := 60, capacity := 3, created_at := 0 }

def c9State : AppState := runOps [Op.createUser c9UserBody, Op.createQuest c9QuestBody]

def c9Quest : Quest :=
  { quest_id := "q1", organizer_id := "u1", title := "T", description := "D",
    area := "NTU", social_style := "quiet", mode := "offline", tags := ∅,
    start_time := 100, duration_mins := 60, capacity := 3, created_at := 0,
    participant_ids := ∅, completions := [] }

theorem C9_join_no_user_check_witness :
    (join_quest c9State "q1" "ghost").1 = JoinResult.ok ∧
    dictGet (join_quest c9State "q1" "ghost").2.quests "q1" =
      some { c9Quest with participant_ids := insert "ghost" c9Quest.participant_ids } :=
  C9_join_no_user_check c9State "q1" "ghost" c9Quest
    (by decide) (by decide) (by decide) (by decide)

theorem complete_quest_step {s : AppState} {qid uid : String} {q : Quest} (r : Nat)
    (hq : dictGet s.quests qid = some q) :
    (complete_quest s qid uid r).1 = CompleteResult.ok ∧
    dictGet (complete_quest s qid uid r).2.quests qid =
      some { q with completions := dictInsert q.completions uid r } := by
  constructor
  · simp [complete_quest, hq]
  · simp [complete_quest, hq, dictGet_dictInsert_self]

/-- C10: completing the same quest twice as the same user is last-write-
wins: both calls succeed, the stored quest keeps every field except
`completions` unchanged, the user's stored rating is the second one, and
the completions dict holds exactly one entry for that user. -/
theorem C10_complete_last_write_wins (s : AppState) (qid uid : String) (q : Quest)
    (r1 r2 : Nat)
    (hq : dictGet s.quests qid = some q)
    (hnd : (q.completions.map Prod.fst).Nodup) :
    (complete_quest s qid uid r1).1 = CompleteResult.ok ∧
    (complete_quest (complete_quest s qid uid r1).2 qid uid r2).1 = CompleteResult.ok ∧
    dictGet (complete_quest (complete_quest s qid uid r1).2 qid uid r2).2.quests qid =
      some { q with completions := dictInsert (dictInsert q.completions uid r1) uid r2 } ∧
    dictGet (dictInsert (dictInsert q.completions uid r1) uid r2) uid = some r2 ∧
    keyCount (dictInsert (dictInsert q.completions uid r1) uid r2) uid = 1 := by
  obtain ⟨ho1, h1⟩ := complete_quest_step r1 hq
  obtain ⟨ho2, h2⟩ := complete_quest_step r2 h1
  exact ⟨ho1, ho2, h2, dictGet_dictInsert_self _ _ _,
    keyCount_dictInsert _ _ _ (nodup_keys_dictInsert uid r1 hnd)⟩

def c10UserBody : UserBody :=
  { user_id := "u1", display_name := "U", password := "pw123",
    default_energy := "neutral", social_style := "quiet", mode := "either",
    interests := [], area := "NTU", created_at := 0 }

def c10QuestBody : QuestBody :=
  { quest_id := "q1", organizer_id := "u1", title := "T", description := "D",
    area := "NTU", social_style := "quiet", mode := "offline", tags := [],
    start_time := 100, duration_mins := 60, capacity := 3, created_at := 0 }

def c10State : AppState :=
  runOps [Op.createUser c10UserBody, Op.createQuest c10QuestBody, Op.join "q1" "u1"]

def c10Quest : Quest :=
  { quest_id := "q1", organizer_id := "u1", title := "T", description := "D",
    area := "NTU", social_style := "quiet", mode := "offline", tags := ∅,
    start_time := 100, duration_mins := 60, capacity := 3, created_at := 0,
    participant_ids := insert "u1" ∅, completions := [] }

theorem C10_complete_last_write_wins_witness :
    (complete_quest c10State "q1" "u1" 2).1 = CompleteResult.ok ∧
    (complete_quest (complete_quest c10State "q1" "u1" 2).2 "q1" "u1" 5).1 =
      CompleteResult.ok ∧
    dictGet (complete_quest (complete_quest c10State "q1" "u1" 2).2 "q1" "u1" 5).2.quests
        "q1" =
      some { c10Quest with
        completions := dictInsert (dictInsert c10Quest.completions "u1" 2) "u1" 5 } ∧
    dictGet (dictInsert (dictInsert c10Quest.completions "u1" 2) "u1" 5) "u1" = some 5 ∧
    keyCount (dictInsert (dictInsert c10Quest.completions "u1" 2) "u1" 5) "u1" = 1 :=
  C10_complete_last_write_wins c10State "q1" "u1" c10Quest 2 5 (by decide) (by decide)

def c4UserBody : UserBody :=
  { user_id := "u1", display_name := "U", password := "pw123",
    default_energy := "neutral", social_style := "quiet", mode := "either",
    interests := [], area := "NTU", created_at := 0 }

def c4QuestBody : QuestBody :=
  { quest_id := "q1", organizer_id := "u1", title := "T", description := "D",
    area := "NTU", social_style := "quiet", mode := "offline", tags := [],
    start_time := 100, duration_mins := 60, capacity := 2, created_at := 0 }

/-- A run in which "bob", who never joined the quest, submits a rating. -/
def c4Ops : List Op :=
  [Op.createUser c4UserBody, Op.createQuest c4QuestBody, Op.complete "q1" "bob" 3]

def c4State : AppState := runOps c4Ops

def c4Quest : Quest :=
  { quest_id := "q1", organizer_id := "u1", title := "T", description := "D",
    area := "NTU", social_style := "quiet", mode := "offline", tags := ∅,
    start_time := 100, duration_mins := 60, capacity := 2, created_at := 0,
    participant_ids := ∅, completions := [("bob", 3)] }

/-- C4 fails on the code: `complete_quest` records a rating from a
non-participant, so at this reachable state a completions key is not a
member of the quest's participant set. -/
theorem C4_completions_counterexample :
    Reachable c4State ∧
    dictGet c4State.quests "q1" = some c4Quest ∧
    "bob" ∈ c4Quest.completions.map Prod.fst ∧
    "bob" ∉ c4Quest.participant_ids :=
  ⟨⟨c4Ops, rfl⟩, by decide, by decide, by decide⟩

/-- C4 amended: `complete_quest` on an existing quest always succeeds and
records the rating whether or not the submitting user is a participant —
no Conflict rejection exists, so completions keys need not be members of
`participant_ids`. -/
theorem C4_completions_amended (s : AppState) (qid uid : String) (r : Nat) (q : Quest)
    (hq : dictGet s.quests qid = some q) :
    (complete_quest s qid uid r).1 = CompleteResult.ok ∧
    dictGet (complete_quest s qid uid r).2.quests qid =
      some { q with completions := dictInsert q.completions uid r } := by
  constructor
  · simp [complete_quest, hq]
  · simp [complete_quest, hq, dictGet_dictInsert_self]

def c4Base : AppState := runOps [Op.createUser c4UserBody, Op.createQuest c4QuestBody]

def c4BaseQuest : Quest :=
  { quest_id := "q1", organizer_id := "u1", title := "T", description := "D",
    area := "NTU", social_style := "quiet", mode := "offline", tags := ∅,
    start_time := 100, duration_mins := 60, capacity := 2, created_at := 0,
    participant_ids := ∅, completions := [] }

theorem C4_completions_amended_witness :
    (complete_quest c4Base "q1" "bob" 3).1 = CompleteResult.ok ∧
    dictGet (complete_quest c4Base "q1" "bob" 3).2.quests "q1" =
      some { c4BaseQuest with completions := dictInsert c4BaseQuest.completions "bob" 3 } :=
  C4_completions_amended c4Base "q1" "bob" 3 c4BaseQuest (by decide)

def c1UserBody : UserBody :=
  { user_id := "u1", display_name := "U", password := "pw123",
    default_energy := "high", social_style := "either", mode := "either",
    interests := [], area := "NTU", created_at := 0 }

/-- The quest of the spec's end-to-end example: area "NTU", mode
"either", social style "talkative", 90 minutes, capacity 2, no tags, no
participants, starting one hour after "now" (taken as instant 0). -/
def c1QuestBody : QuestBody :=
  { quest_id := "q1", organizer_id := "u1", title := "T", description := "D",
    area := "NTU", social_style := "talkative", mode := "either", tags := [],
    start_time := 3600, duration_mins := 90, capacity := 2, created_at := 0 }

def c1Ops : List Op := [Op.createUser c1UserBody, Op.createQuest c1QuestBody]

def c1State : AppState := runOps c1Ops

def c1Quest : Quest :=
  { quest_id := "q1", organizer_id := "u1", title := "T", description := "D",
    area := "NTU", social_style := "talkative", mode := "either", tags := ∅,
    start_time := 3600, duration_mins := 90, capacity := 2, created_at := 0,
    participant_ids := ∅, completions := [] }

/-- C1 fails on the code: in the spec's end-to-end scenario the code does
return exactly the one quest, but its score is the simple scorer's 0.5
(base 0.5, and no +0.3 since "either" ≠ "talkative"), not the weighted sum
0.75 of the four sub-scores, which the code never computes. -/
theorem C1_endtoend_counterexample :
    Reachable c1State ∧
    get_recommendations c1State "u1" 3 = some [(c1Quest, mkRat 5 10)] ∧
    (mkRat 5 10 : ℚ) ≠ mkRat 75 100 :=
  ⟨⟨c1Ops, rfl⟩, by decide, by decide⟩

/-- C1 amended: in the spec's end-to-end scenario `get_recommendations`
returns exactly the quest `Q` with score 0.5: the flat base 0.5, with the
+0.3 social-style bonus not applied because the user's "either" is
compared by plain equality against the quest's "talkative". -/
theorem C1_endtoend_amended :
    get_recommendations c1State "u1" 3 = some [(c1Quest, mkRat 5 10)] := by decide

/-- Modelled from the spec: the event-log record of §3 — the analytics
aggregator and the event log it scans are missing from the source (only
the `DashboardOut` response model survives), so the event shape is taken
from the spec's words: kind, timestamp, and the optional payload fields
`area`, `user_id`, `quest_id`, `rating`. -/
structure Event where
  kind : String
  timestamp : Int
  area : Option String
  user_id : Option String
  quest_id : Option String
  rating : Option Nat
deriving DecidableEq

/-- Modelled from the spec: the slice of the user record the aggregator
reads — area, creation instant and the once-set `first_join_at`. -/
structure SUser where
  user_id : String
  area : String
  created_at : Int
  first_join_at : Option Int
deriving DecidableEq

/-- Modelled from the spec: the slice of the quest record the aggregator
reads — area and lowercase tag list. -/
structure SQuest where
  quest_id : String
  area : String
  tags : List String
deriving DecidableEq

/-- Modelled from the spec: the process state the aggregator scans —
append-only event log plus the two entity stores. -/
structure SpecState where
  events : List Event
  users : List (String × SUser)
  quests : List (String × SQuest)
deriving DecidableEq

/-- Modelled from the spec: the seven-metric dashboard snapshot of §4.2. -/
structure Dashboard where
  area : String
  active_users_7d : Nat
  quests_created_7d : Nat
  joins_7d : Nat
  completions_7d : Nat
  repeat_participation_rate_30d : ℚ
  avg_connectedness_7d : Option ℚ
  time_to_first_connection_hours_avg : Option ℚ
  top_tags_7d : List (String × Nat)
deriving DecidableEq

/-- An event timestamp lies within the last `days` days before `now`. -/
def inWindow (now : Int) (days : Nat) (e : Event) : Bool :=
  decide (now - days * 86400 ≤ e.timestamp) && decide (e.timestamp ≤ now)

/-- The events of the last `days` days whose payload area is `area`
(events without an area are excluded, per §4.2 step 1). -/
def areaEvents (s : SpecState) (area : String) (now : Int) (days : Nat) : List Event :=
  s.events.filter (fun e => e.area == some area && inWindow now days e)

/-- Descending order on tag counts for the top-tags ranking. -/
def tagDesc (a b : String × Nat) : Prop := b.2 ≤ a.2

instance tagDescDecidable : DecidableRel tagDesc :=
  fun a b => inferInstanceAs (Decidable (b.2 ≤ a.2))

/-- Modelled from the spec: the analytics aggregator of §4.2,
recomputed from scratch on each call.  Division is guarded by the
emptiness checks, so the function is total and never signals an error
for any area. -/
def compute_dashboard (s : SpecState) (area : String) (now : Int) : Dashboard :=
  let ev7 := areaEvents s area now 7
  let ev30 := areaEvents s area now 30
  let joins30 := (ev30.filter (fun e => e.kind == "quest_joined")).filterMap Event.user_id
  let distinctJoiners := joins30.dedup
  let ratings := (ev7.filter (fun e => e.kind == "quest_completed")).filterMap Event.rating
  let ttfcHours := (s.users.map Prod.snd).filterMap (fun u =>
    if u.area == area then
      u.first_join_at.map (fun fj => ((fj - u.created_at : Int) : ℚ) / 3600)
    else none)
  let joinedTags := ((ev7.filter (fun e => e.kind == "quest_joined")).filterMap
      Event.quest_id).filterMap (fun qid => dictGet s.quests qid)
  let allTags := joinedTags.flatMap SQuest.tags
  let tagCounts := allTags.dedup.map (fun t => (t, allTags.count t))
  { area := area
    active_users_7d := (ev7.filterMap Event.user_id).dedup.length
    quests_created_7d := (ev7.filter (fun e => e.kind == "quest_created")).length
    joins_7d := (ev7.filter (fun e => e.kind == "quest_joined")).length
    completions_7d := (ev7.filter (fun e => e.kind == "quest_completed")).length
    repeat_participation_rate_30d :=
      if distinctJoiners.length = 0 then 0
      else ((distinctJoiners.filter (fun u => 2 ≤ joins30.count u)).length : ℚ) /
        (distinctJoiners.length : ℚ)
    avg_connectedness_7d :=
      if ratings.length = 0 then none
      else some ((ratings.map (fun r => (r : ℚ))).sum / (ratings.length : ℚ))
    time_to_first_connection_hours_avg :=
      if ttfcHours.length = 0 then none
      else some (ttfcHours.sum / (ttfcHours.length : ℚ))
    top_tags_7d := (List.insertionSort tagDesc tagCounts).take 5 }

/-- Modelled from the spec: one state-changing action of the CRUD
collaborators of §6, which mutate the entity stores and append exactly
one event per action, with the payload area taken from the acted-on
entity. -/
inductive SpecOp
  | createUser (user_id area : String) (t : Int)
  | checkIn (user_id : String) (t : Int)
  | createQuest (quest_id organizer_id area : String) (tags : List String) (t : Int)
  | joinQuest (quest_id user_id : String) (t : Int)
  | completeQuest (quest_id user_id : String) (rating : Nat) (t : Int)
  | viewRecs (user_id : String) (t : Int)
deriving DecidableEq

/-- Modelled from the spec: the effect of one collaborator action —
Not-Found requests leave the state unchanged; `joinQuest` sets
`first_join_at` only on the first join (§3). -/
def applySpecOp (s : SpecState) : SpecOp → SpecState
  | SpecOp.createUser uid area t =>
      { s with
        users := dictInsert s.users uid ⟨uid, area, t, none⟩
        events := s.events ++ [⟨"user_created", t, some area, some uid, none, none⟩] }
  | SpecOp.checkIn uid t =>
      match dictGet s.users uid with
      | none => s
      | some u =>
        { s with events := s.events ++
            [⟨"user_checkin", t, some u.area, some uid, none, none⟩] }
  | SpecOp.createQuest qid org area tags t =>
      match dictGet s.users org with
      | none => s
      | some _ =>
        { s with
          quests := dictInsert s.quests qid ⟨qid, area, tags.map String.toLower⟩
          events := s.events ++
            [⟨"quest_created", t, some area, some org, some qid, none⟩] }
  | SpecOp.joinQuest qid uid t =>
      match dictGet s.quests qid, dictGet s.users uid with
      | some q, some u =>
        { s with
          users := dictInsert s.users uid
            { u with first_join_at := some (u.first_join_at.getD t) }
          events := s.events ++
            [⟨"quest_joined", t, some q.area, some uid, some qid, none⟩] }
      | _, _ => s
  | SpecOp.completeQuest qid uid r t =>
      match dictGet s.quests qid with
      | none => s
      | some q =>
        { s with events := s.events ++
            [⟨"quest_completed", t, some q.area, some uid, some qid, some r⟩] }
  | SpecOp.viewRecs uid t =>
      match dictGet s.users uid with
      | none => s
      | some u =>
        { s with events := s.events ++
            [⟨"recommendations_viewed", t, some u.area, some uid, none, none⟩] }

/-- The empty log and stores the modelled process starts with. -/
def initSpecState : SpecState :=
  { events := [], users := [], quests := [] }

/-- The modelled state after a sequence of collaborator actions. -/
def runSpecOps (ops : List SpecOp) : SpecState :=
  ops.foldl applySpecOp initSpecState

/-- A state the modelled process can actually be in. -/
def SpecReachable (s : SpecState) : Prop :=
  ∃ ops, runSpecOps ops = s

/-- Every stored user's area is witnessed by a `user_created` event with
that payload area: the collaborators of §6 append such an event whenever
they create a user, and never change a user's area afterwards. -/
def UserAreaLogged (s : SpecState) : Prop :=
  ∀ p ∈ s.users, ∃ e ∈ s.events, e.kind = "user_created" ∧ e.area = some p.2.area

theorem userAreaLogged_applySpecOp {s : SpecState} (op : SpecOp)
    (h : UserAreaLogged s) : UserAreaLogged (applySpecOp s op) := by
  have hmono : ∀ (x : Event) (p : String × SUser),
      (∃ e ∈ s.events, e.kind = "user_created" ∧ e.area = some p.2.area) →
      ∃ e ∈ s.events ++ [x], e.kind = "user_created" ∧ e.area = some p.2.area :=
    fun x p ⟨e, he, hk⟩ => ⟨e, List.mem_append_left _ he, hk⟩
  cases op with
  | createUser uid area t =>
    simp only [applySpecOp]
    intro p hp
    rcases mem_dictInsert hp with rfl | hm
    · exact ⟨⟨"user_created", t, some area, some uid, none, none⟩,
        List.mem_append_right _ (List.mem_singleton_self _), rfl, rfl⟩
    · exact hmono _ p (h p hm)
  | checkIn uid t =>
    simp only [applySpecOp]
    cases hg : dictGet s.users uid with
    | none => exact h
    | some u => exact fun p hp => hmono _ p (h p hp)
  | createQuest qid org area tags t =>
    simp only [applySpecOp]
    cases hg : dictGet s.users org with
    | none => exact h
    | some u => exact fun p hp => hmono _ p (h p hp)
  | joinQuest qid uid t =>
    simp only [applySpecOp]
    cases hq : dictGet s.quests qid with
    | none => exact h
    | some q =>
      cases hu : dictGet s.users uid with
      | none => exact h
      | some u =>
        intro p hp
        rcases mem_dictInsert hp with rfl | hm
        · exact hmono _ _ (h (uid, u) (dictGet_mem hu))
        · exact hmono _ p (h p hm)
  | completeQuest qid uid r t =>
    simp only [applySpecOp]
    cases hq : dictGet s.quests qid with
    | none => exact h
    | some q => exact fun p hp => hmono _ p (h p hp)
  | viewRecs uid t =>
    simp only [applySpecOp]
    cases hu : dictGet s.users uid with
    | none => exact h
    | some u => exact fun p hp => hmono _ p (h p hp)

theorem userAreaLogged_runSpecOps (ops : List SpecOp) :
    ∀ s, UserAreaLogged s → UserAreaLogged (ops.foldl applySpecOp s) := by
  induction ops with
  | nil => exact fun s h => h
  | cons op ops ih => exact fun s h => ih _ (userAreaLogged_applySpecOp op h)

/-- C5: at every reachable state, the dashboard for an area with no
matching events in the log has zero counts, a zero repeat rate, absent
averages and an empty top-tags list; being a total function, the
aggregator never signals an error for any area.  (The time-to-first-
connection average scans the user store, not the log; the `UserAreaLogged`
invariant ties it to the no-events hypothesis.) -/
theorem C5_dashboard_empty (s : SpecState) (A : String) (now : Int)
    (hr : SpecReachable s)
    (hA : ∀ e ∈ s.events, e.area ≠ some A) :
    compute_dashboard s A now =
      { area := A, active_users_7d := 0, quests_created_7d := 0, joins_7d := 0,
        completions_7d := 0, repeat_participation_rate_30d := 0,
        avg_connectedness_7d := none, time_to_first_connection_hours_avg := none,
        top_tags_7d := [] } := by
  obtain ⟨ops, rfl⟩ := hr
  have hlog : UserAreaLogged (runSpecOps ops) :=
    userAreaLogged_runSpecOps ops initSpecState
      (fun p hp => by simp [initSpecState] at hp)
  have hev : ∀ days, areaEvents (runSpecOps ops) A now days = [] := by
    intro days
    refine List.filter_eq_nil_iff.2 (fun e he => ?_)
    simp [hA e he]
  have husers : ∀ p ∈ (runSpecOps ops).users, p.2.area ≠ A := by
    intro p hp hAarea
    obtain ⟨e, he, -, ha⟩ := hlog p hp
    exact hA e he (hAarea ▸ ha)
  have httfc : ((runSpecOps ops).users.map Prod.snd).filterMap (fun u =>
      if u.area == A then
        u.first_join_at.map (fun fj => ((fj - u.created_at : Int) : ℚ) / 3600)
      else none) = [] := by
    refine List.filterMap_eq_nil_iff.2 (fun u hu => ?_)
    obtain ⟨p, hp, rfl⟩ := List.mem_map.1 hu
    simp [husers p hp]
  simp only [compute_dashboard, hev 7, hev 30, httfc]
  simp

/-- A run whose four events and one user all carry the area "NTU". -/
def c5Ops : List SpecOp :=
  [SpecOp.createUser "u1" "NTU" 0, SpecOp.createQuest "q1" "u1" "NTU" ["run"] 10,
   SpecOp.joinQuest "q1" "u1" 20, SpecOp.completeQuest "q1" "u1" 5 30]

def c5State : SpecState := runSpecOps c5Ops

theorem C5_dashboard_empty_witness :
    compute_dashboard c5State "West" 1000 =
      { area := "West", active_users_7d := 0, quests_created_7d := 0, joins_7d := 0,
        completions_7d := 0, repeat_participation_rate_30d := 0,
        avg_connectedness_7d := none, time_to_first_connection_hours_avg := none,
        top_tags_7d := [] } :=
  C5_dashboard_empty c5State "West" 1000 ⟨c5Ops, rfl⟩ (by decide)

end SideQuest
